import Mathlib

/-!
Verification of the badminton-rating service core (`src/api/index.py`).

The Python module keeps all state in module-level dicts (`players_db`,
`rooms_db`, `room_counter`, `tournaments_db`, `tournament_games`,
`tournament_counter`, `current_tournament`) and exposes operations through an
HTTP handler.  We embed the state as a `ServerState` structure and each handler
branch as an explicit state-passing function.

Modelling conventions:
- Python dicts keyed by ints are association lists with replace-or-append
  insertion (`insertA`), first-match lookup (`lookupA`) and first-match
  deletion (`eraseA`); in every state reachable from the initial one a key
  occurs at most once, so these coincide with dict semantics.
- Python floats are modelled by exact real numbers (`ℝ`); `int()` truncation
  toward zero is `pyTrunc`.  Integer-only arithmetic keeps `ℤ`.
- Timestamp fields (`created_at`, `joined_at`, `finished_at`, tournament
  start/end times) never influence control flow and are omitted.
- The two unbounded loops inside `Glicko2Rating.update_rating` (the `k`-search
  and the Illinois regula-falsi iteration) are given explicit fuel; every
  theorem below depends only on the shape of the returned value, never on the
  number of iterations performed.
-/

/-- First-match lookup in an association list (Python `d[k]` / `k in d`). -/
def lookupA {κ α : Type} [DecidableEq κ] : List (κ × α) → κ → Option α
  | [], _ => none
  | (k, v) :: rest, key => if k = key then some v else lookupA rest key

/-- Replace-or-append insertion (Python `d[k] = v`). -/
def insertA {κ α : Type} [DecidableEq κ] : List (κ × α) → κ → α → List (κ × α)
  | [], key, val => [(key, val)]
  | (k, v) :: rest, key, val =>
    if k = key then (k, val) :: rest else (k, v) :: insertA rest key val

/-- First-match deletion (Python `del d[k]`). -/
def eraseA {κ α : Type} [DecidableEq κ] : List (κ × α) → κ → List (κ × α)
  | [], _ => []
  | (k, v) :: rest, key => if k = key then rest else (k, v) :: eraseA rest key

/-- Python `int()` truncation toward zero on a real value. -/
noncomputable def pyTrunc (x : ℝ) : ℤ := if 0 ≤ x then ⌊x⌋ else ⌈x⌉

/-- A `players_db` entry.  Python stores `id` equal to `telegram_id`; `rating`
is a Python number (int by construction), modelled in `ℝ` because the
finish-game update writes values produced by real-number arithmetic. -/
structure Player where
  id : Int
  telegram_id : Int
  first_name : String
  last_name : Option String
  username : Option String
  rating : ℝ

/-- A room member entry.  Python stores a reference to the player dict; since
every rating read/write in the module goes through `players_db`, the member
needs only the player's `telegram_id` key. -/
structure Member where
  id : Nat
  tid : Int
  is_leader : Bool

/-- One entry of the per-game `rating_changes` report. -/
structure RatingChange where
  old_rating : ℝ
  new_rating : ℝ
  rating_change : ℝ
  team : Nat
  won : Bool

/-- A `rooms_db` entry.  The three finish-game keys that Python adds to the
dict on game completion are modelled as a `Bool` defaulting to `false` and two
`Option` fields defaulting to `none`. -/
structure Room where
  id : Nat
  name : String
  creator_id : Int
  creator_full_name : String
  max_players : Nat
  member_count : Nat
  is_active : Bool
  members : List Member
  game_finished : Bool
  final_score : Option (Int × Int)
  rating_changes : Option (List (Int × RatingChange))

/-- A `tournaments_db` entry (timestamps omitted). -/
structure Tournament where
  id : Nat
  active : Bool

/-- A `tournament_games` record. -/
structure GameRecord where
  tournament_id : Nat
  room_id : Nat
  team1 : List Int
  team2 : List Int
  score1 : Int
  score2 : Int
  rating_changes : List (Int × RatingChange)

/-- The module-level mutable state of `src/api/index.py`. -/
structure ServerState where
  players_db : List (Int × Player)
  rooms_db : List (Nat × Room)
  room_counter : Nat
  tournaments_db : List (Nat × Tournament)
  tournament_games : List (Nat × List GameRecord)
  tournament_counter : Nat
  current_tournament : Option Nat

/-- `Glicko2Rating.calculate_g`. -/
noncomputable def calculate_g (rd : ℝ) : ℝ :=
  1 / Real.sqrt (1 + (3 * rd ^ 2) / Real.pi ^ 2)

/-- `Glicko2Rating.calculate_e`. -/
noncomputable def calculate_e (rating opponent_rating opponent_rd : ℝ) : ℝ :=
  1 / (1 + Real.exp (-(calculate_g opponent_rd) * (rating - opponent_rating) / 400))

/-- The variance accumulator `v` of `update_rating` step 1, before inversion:
`Σ g(RDj)² · E · (1 − E)` over the result triples `(opp_rating, opp_rd, score)`. -/
noncomputable def vSum (rating : ℝ) (results : List (ℝ × ℝ × ℝ)) : ℝ :=
  (results.map (fun r =>
    calculate_g r.2.1 ^ 2 * calculate_e rating r.1 r.2.1 *
      (1 - calculate_e rating r.1 r.2.1))).sum

/-- The delta accumulator of `update_rating` step 2, before multiplication by
`v`: `Σ g(RDj) · (score − E)`. -/
noncomputable def deltaSum (rating : ℝ) (results : List (ℝ × ℝ × ℝ)) : ℝ :=
  (results.map (fun r =>
    calculate_g r.2.1 * (r.2.2 - calculate_e rating r.1 r.2.1))).sum

/-- The volatility objective `f` of `update_rating` step 3. -/
noncomputable def volF (delta rd v a tau x : ℝ) : ℝ :=
  Real.exp x * (delta ^ 2 - rd ^ 2 - v - Real.exp x) /
    (2 * (rd ^ 2 + v + Real.exp x) ^ 2) - (x - a) / tau ^ 2

/-- The `while f(a - k*tau) < 0: k += 1` search, with fuel. -/
noncomputable def findK (f : ℝ → ℝ) (a tau : ℝ) : Nat → Nat → Nat
  | 0, k => k
  | fuel + 1, k => if f (a - k * tau) < 0 then findK f a tau fuel (k + 1) else k

/-- The Illinois (modified regula falsi) loop of `update_rating` step 3, with
fuel; returns the final bracket endpoint `A`. -/
noncomputable def illinois (f : ℝ → ℝ) : Nat → ℝ → ℝ → ℝ → ℝ → ℝ
  | 0, A, _, _, _ => A
  | fuel + 1, A, B, fA, fB =>
    if |B - A| > 1 / 1000000 then
      let C := A + (A - B) * fA / (fB - fA)
      let fC := f C
      if fC * fB < 0 then illinois f fuel B C fB fC
      else illinois f fuel A C (fA / 2) fC
    else A

/-- Fuel bound for the two loops (the Python loops are unbounded; no theorem
below depends on the bound). -/
def loopFuel : Nat := 1000

/-- `Glicko2Rating.update_rating`, as a function of the rating state carried by
the object and the result list; returns `(new_rating, new_rd, new_vol)`.  The
two early returns hand back the inputs unchanged; the success path returns the
`int()`-truncated new rating and deviation (coerced back into `ℝ`, matching
Python's dynamically typed return). -/
noncomputable def update_rating (rating rd vol : ℝ) (results : List (ℝ × ℝ × ℝ))
    (tau : ℝ) : ℝ × ℝ × ℝ :=
  if results.isEmpty then (rating, rd, vol)
  else
    let v0 := vSum rating results
    if v0 = 0 then (rating, rd, vol)
    else
      let v := 1 / v0
      let delta := deltaSum rating results * v
      let a := Real.log (vol ^ 2)
      let f := volF delta rd v a tau
      let B0 := if delta ^ 2 > rd ^ 2 + v then Real.log (delta ^ 2 - rd ^ 2 - v)
                else a - (findK f a tau loopFuel 1 : ℝ) * tau
      let A := illinois f loopFuel a B0 (f a) (f B0)
      let new_vol := Real.exp (A / 2)
      let new_rd := Real.sqrt (rd ^ 2 + new_vol ^ 2)
      let new_rating := rating + new_rd ^ 2 * delta
      ((pyTrunc new_rating : ℝ), (pyTrunc new_rd : ℝ), new_vol)

/-- `calculate_team_rating`: the 2-player team aggregation.  Any other team
size (including a single player) yields the constant `1500`; the `is_winner`
argument is accepted and ignored, exactly as in the source. -/
noncomputable def calculate_team_rating (players : List Player) (is_winner : Bool) : ℤ :=
  if players.length ≠ 2 then 1500
  else
    let avg_rating : ℝ := (players.map Player.rating).sum / 2
    let team_bonus : ℝ := avg_rating * 0.05
    pyTrunc (avg_rating + team_bonus)

/-- The `score_data` payload of a finish-game request. -/
structure ScoreData where
  team1 : List Int
  team2 : List Int
  score1 : Int
  score2 : Int

/-- The team lists of `calculate_rating_changes` are lists of references to the
current `players_db` dicts; reading them later observes current ratings. -/
def getPlayers (pdb : List (Int × Player)) (pids : List Int) : List Player :=
  pids.filterMap (lookupA pdb)

/-- The per-match outcome score handed to `update_rating`:
`1 if <own side> won else (0.5 if not team1_won and not team2_won else 0)`;
`t_won`/`opp_won` are this side's and the other side's win flags, so the draw
test `not team1_won and not team2_won` is `!t_won && !opp_won`. -/
def scoreOf (t_won opp_won : Bool) : ℝ :=
  if t_won then 1 else if !t_won && !opp_won then 0.5 else 0

/-- One processing loop of `calculate_rating_changes` (the body is identical
for team 1 and team 2 up to which side is "own" and which "opposing").  For
each own player id in order: build the single-opponent result list (empty when
the opposing roster is empty), run `update_rating` on a fresh
`(rating, 350, 0.06)` state, record the change, and write the new rating back
into `players_db`. -/
noncomputable def processPlayers (opp_pids : List Int) (t_won opp_won : Bool)
    (teamNo : Nat) :
    List Int → List (Int × RatingChange) → List (Int × Player) →
      List (Int × RatingChange) × List (Int × Player)
  | [], changes, pdb => (changes, pdb)
  | pid :: rest, changes, pdb =>
    match lookupA pdb pid with
    | none => processPlayers opp_pids t_won opp_won teamNo rest changes pdb
    | some player =>
      let results : List (ℝ × ℝ × ℝ) :=
        if opp_pids.isEmpty then []
        else
          [((calculate_team_rating (getPlayers pdb opp_pids) opp_won : ℝ), 350,
            scoreOf t_won opp_won)]
      let upd := update_rating player.rating 350 0.06 results 0.5
      let new_rating := upd.1
      let change : RatingChange :=
        { old_rating := player.rating
          new_rating := new_rating
          rating_change := new_rating - player.rating
          team := teamNo
          won := t_won }
      processPlayers opp_pids t_won opp_won teamNo rest
        (insertA changes pid change)
        (insertA pdb pid { player with rating := new_rating })

/-- `calculate_rating_changes`: filters each roster to known players, derives
the win flags from the score pair, processes team 1 then team 2, and returns
the change report together with the mutated `players_db`. -/
noncomputable def calculate_rating_changes (pdb : List (Int × Player))
    (sd : ScoreData) : List (Int × RatingChange) × List (Int × Player) :=
  let t1 := sd.team1.filter (fun pid => (lookupA pdb pid).isSome)
  let t2 := sd.team2.filter (fun pid => (lookupA pdb pid).isSome)
  let team1_won := decide (sd.score1 > sd.score2)
  let team2_won := decide (sd.score2 > sd.score1)
  let r1 := processPlayers t2 team1_won team2_won 1 t1 [] pdb
  processPlayers t1 team2_won team1_won 2 t2 r1.1 r1.2

/-- Structured stand-ins for the handler's error responses. -/
inductive ApiError
  | missingField
  | keyError
  | duplicateRoom (existing : Nat)
  | roomNotFound
  | roomFull
  | notAMember
  | invalidRoster
  | noActiveTournament
deriving DecidableEq

/-- Request body of `POST /players/` (`data.get` fields are `Option`). -/
structure PlayerData where
  telegram_id : Option Int
  first_name : Option String
  last_name : Option String
  username : Option String

/-- `POST /players/` — create/update a player.  Rebuilds the player dict from
the request with `rating` fixed at `1500` and stores it unconditionally. -/
def upsertPlayer (s : ServerState) (d : PlayerData) :
    Except ApiError Player × ServerState :=
  match d.telegram_id with
  | none => (.error .missingField, s)
  | some tid =>
    match d.first_name with
    | none => (.error .keyError, s)
    | some fn =>
      let player : Player :=
        { id := tid, telegram_id := tid, first_name := fn,
          last_name := d.last_name, username := d.username, rating := 1500 }
      (.ok player, { s with players_db := insertA s.players_db tid player })

/-- `GET /players/{telegram_id}` — returns the stored player, or a synthetic
placeholder (rating 1500) for an unknown id; never an error, never a write. -/
def getPlayer (s : ServerState) (telegram_id : Int) : Player × ServerState :=
  match lookupA s.players_db telegram_id with
  | some p => (p, s)
  | none =>
    ({ id := telegram_id, telegram_id := telegram_id,
       first_name := "Неизвестный", last_name := some "Игрок",
       username := none, rating := 1500 }, s)

/-- Python `f"{first_name} {last_name}"` with `.strip()`; a `None` last name
renders as the string `"None"` under `dict.get` + f-string. -/
def mkFullName (fn : String) (ln : Option String) : String :=
  (fn ++ " " ++ (match ln with | some l => l | none => "None")).trim

/-- Request body of `POST /rooms/`. -/
structure RoomData where
  creator_telegram_id : Option Int
  name : Option String
  max_players : Option Nat

/-- The default player dict that room creation stores for an unknown creator. -/
def defaultCreator (cid : Int) : Player :=
  { id := cid, telegram_id := cid, first_name := "Игрок",
    last_name := some (toString cid), username := none, rating := 1500 }

/-- `POST /rooms/` — create a room.  The duplicate scan walks `rooms_db` in
order and trips on the first room whose `creator_id` matches, whatever its
state; only if none matches is the creator default-registered (when unknown)
and a fresh room stored under `room_counter`. -/
def createRoom (s : ServerState) (d : RoomData) :
    Except ApiError Room × ServerState :=
  match d.creator_telegram_id with
  | none => (.error .missingField, s)
  | some cid =>
    match s.rooms_db.find? (fun kv => kv.2.creator_id == cid) with
    | some (rid, _) => (.error (.duplicateRoom rid), s)
    | none =>
      let pdb :=
        if (lookupA s.players_db cid).isSome then s.players_db
        else insertA s.players_db cid (defaultCreator cid)
      match d.name, lookupA pdb cid with
      | none, _ => (.error .keyError, { s with players_db := pdb })
      | some _, none => (.error .keyError, { s with players_db := pdb })
      | some nm, some creator =>
        let new_room : Room :=
          { id := s.room_counter, name := nm, creator_id := cid,
            creator_full_name := mkFullName creator.first_name creator.last_name,
            max_players := d.max_players.getD 4,
            member_count := 1, is_active := true,
            members := [{ id := 1, tid := cid, is_leader := true }],
            game_finished := false, final_score := none, rating_changes := none }
        (.ok new_room,
          { s with players_db := pdb,
                   rooms_db := insertA s.rooms_db s.room_counter new_room,
                   room_counter := s.room_counter + 1 })

/-- Responses of `POST /rooms/{id}/join` we distinguish: the idempotent
"already in the room" message versus an actual join. -/
inductive JoinResp
  | alreadyIn (room : Room)
  | joined (room : Room) (member : Member)

/-- `POST /rooms/{id}/join`.  Checks membership (idempotent no-op), then
capacity; on success upserts the player (creating with rating 1500, or
updating the display fields of an existing player — the rating field is left
alone), appends a non-leader member and refreshes `member_count`. -/
def joinRoom (s : ServerState) (room_id : Nat) (telegram_id : Int)
    (first_name last_name : String) (username : Option String) :
    Except ApiError JoinResp × ServerState :=
  match lookupA s.rooms_db room_id with
  | none => (.error .roomNotFound, s)
  | some room =>
    if room.members.any (fun m => m.tid == telegram_id) then
      (.ok (.alreadyIn room), s)
    else if room.members.length ≥ room.max_players then
      (.error .roomFull, s)
    else
      let pdb :=
        match lookupA s.players_db telegram_id with
        | none =>
          insertA s.players_db telegram_id
            { id := telegram_id, telegram_id := telegram_id,
              first_name := first_name, last_name := some last_name,
              username := username, rating := 1500 }
        | some p =>
          insertA s.players_db telegram_id
            { p with first_name := first_name, last_name := some last_name,
                     username := username }
      let new_member : Member :=
        { id := room.members.length + 1, tid := telegram_id, is_leader := false }
      let room' :=
        { room with members := room.members ++ [new_member],
                    member_count := room.members.length + 1 }
      (.ok (.joined room' new_member),
        { s with players_db := pdb,
                 rooms_db := insertA s.rooms_db room_id room' })

/-- Responses of `POST /rooms/{id}/leave`. -/
inductive LeaveResp
  | disbanded (affected_members : List Int)
  | leftAndDeleted
  | left (room : Room) (removed : Member)

/-- The `for i, member in enumerate(room['members'])` scan of the leave
handler: index of the first member whose player has the given id. -/
def findMemberIdx (telegram_id : Int) : List Member → Option Nat
  | [] => none
  | m :: rest =>
    if m.tid == telegram_id then some 0
    else (findMemberIdx telegram_id rest).map (· + 1)

/-- `POST /rooms/{id}/leave`.  Pops the first member entry matching the
departing id; if the departing player is the creator the whole room is deleted
and the ids of the members remaining after the pop are reported; an emptied
room is also deleted; otherwise the shrunken room is stored back. -/
def leaveRoom (s : ServerState) (room_id : Nat) (telegram_id : Int) :
    Except ApiError LeaveResp × ServerState :=
  match lookupA s.rooms_db room_id with
  | none => (.error .roomNotFound, s)
  | some room =>
    match findMemberIdx telegram_id room.members with
    | none => (.error .notAMember, s)
    | some i =>
      let removed := room.members.get? i
      let members' := room.members.eraseIdx i
      let room' := { room with members := members', member_count := members'.length }
      if room.creator_id == telegram_id then
        (.ok (.disbanded (members'.map Member.tid)),
          { s with rooms_db := eraseA s.rooms_db room_id })
      else if members'.length == 0 then
        (.ok .leftAndDeleted, { s with rooms_db := eraseA s.rooms_db room_id })
      else
        (.ok (.left room' (removed.getD { id := 0, tid := telegram_id, is_leader := false })),
          { s with rooms_db := insertA s.rooms_db room_id room' })

/-- Append a game record to the active tournament's log (`tournament_games`
always holds a list for the current tournament, created by `start`; an absent
key would be a Python `KeyError`, unreachable from the initial state). -/
def appendGame (games : List (Nat × List GameRecord)) (t : Nat) (g : GameRecord) :
    List (Nat × List GameRecord) :=
  match lookupA games t with
  | none => games
  | some l => insertA games t (l ++ [g])

/-- Successful response of `DELETE /rooms/{id}/finish-game`. -/
inductive FinishResp
  | finished (room : Room) (rating_changes : List (Int × RatingChange))

/-- `DELETE /rooms/{id}/finish-game`.  Requires the room to exist and to hold
exactly 2 or 4 members; then computes and applies the rating changes, stores
the final score and change report on the room, marks it finished, and appends
a game record when a tournament is current.  The score payload is a parameter
here: the Python handler's `do_DELETE` never reads a request body and its
`score_data = data` line references an unbound name, a transport-layer slip —
the core transition is specified as `FinishGame(roomId, scoreData)`. -/
noncomputable def finishGame (s : ServerState) (room_id : Nat) (sd : ScoreData) :
    Except ApiError FinishResp × ServerState :=
  match lookupA s.rooms_db room_id with
  | none => (.error .roomNotFound, s)
  | some room =>
    if room.members.length ∈ ([2, 4] : List Nat) then
      let rc := calculate_rating_changes s.players_db sd
      let room' :=
        { room with game_finished := true,
                    final_score := some (sd.score1, sd.score2),
                    rating_changes := some rc.1 }
      let games :=
        match s.current_tournament with
        | none => s.tournament_games
        | some t =>
          appendGame s.tournament_games t
            { tournament_id := t, room_id := room_id, team1 := sd.team1,
              team2 := sd.team2, score1 := sd.score1, score2 := sd.score2,
              rating_changes := rc.1 }
      (.ok (.finished room' rc.1),
        { s with players_db := rc.2,
                 rooms_db := insertA s.rooms_db room_id room',
                 tournament_games := games })
    else (.error .invalidRoster, s)

/-- `DELETE /tournament/start` — unconditionally opens a new tournament: bumps
the counter, makes the new id current (whatever was current before), and
stores a fresh active record with an empty game log. -/
def startTournament (s : ServerState) : Nat × ServerState :=
  let n := s.tournament_counter + 1
  (n, { s with tournament_counter := n,
               current_tournament := some n,
               tournaments_db := insertA s.tournaments_db n { id := n, active := true },
               tournament_games := insertA s.tournament_games n [] })

/-- `DELETE /tournament/end` — closes the current tournament if one is open. -/
def endTournament (s : ServerState) : Except ApiError Nat × ServerState :=
  match s.current_tournament with
  | none => (.error .noActiveTournament, s)
  | some t =>
    (.ok t,
      { s with tournaments_db :=
                 (match lookupA s.tournaments_db t with
                  | none => s.tournaments_db
                  | some tour => insertA s.tournaments_db t { tour with active := false }),
               current_tournament := none })

/-- Discriminator for successful responses. -/
def isOk {ε α : Type} : Except ε α → Bool
  | .ok _ => true
  | .error _ => false

/-- The spec's `TeamAggregator.aggregate`, written from §4.2 of the design
document for comparison with `calculate_team_rating`: a 1-player team keeps
the player's own rating, a 2-player team gets the truncated 5%-bonused mean,
other sizes are invalid inputs. -/
noncomputable def aggregate_spec : List ℤ → Option ℤ
  | [r] => some r
  | [r1, r2] =>
    some (pyTrunc (((r1 : ℝ) + (r2 : ℝ)) / 2 + 0.05 * (((r1 : ℝ) + (r2 : ℝ)) / 2)))
  | _ => none

theorem lookupA_insertA_self {κ α : Type} [DecidableEq κ]
    (m : List (κ × α)) (k : κ) (v : α) : lookupA (insertA m k v) k = some v := by
  induction m with
  | nil => simp [insertA, lookupA]
  | cons kv rest ih =>
    obtain ⟨k', v'⟩ := kv
    by_cases h : k' = k
    · simp [insertA, lookupA, h]
    · simp [insertA, lookupA, h, ih]

theorem lookupA_insertA_ne {κ α : Type} [DecidableEq κ]
    (m : List (κ × α)) (k key : κ) (v : α) (h : key ≠ k) :
    lookupA (insertA m k v) key = lookupA m key := by
  induction m with
  | nil => simp [insertA, lookupA, Ne.symm h]
  | cons kv rest ih =>
    obtain ⟨k', v'⟩ := kv
    by_cases hk : k' = k
    · subst hk
      simp [insertA, lookupA, Ne.symm h]
    · simp [insertA, lookupA, hk, ih]

/-- C10: for a telegram id absent from the player store, the player lookup
does not fail: it returns a synthetic player carrying that id, rating 1500 and
the placeholder names, and the whole server state (in particular the player
store) is returned unchanged. -/
theorem getPlayer_unknown_synthetic (s : ServerState) (tid : Int)
    (h : lookupA s.players_db tid = none) :
    getPlayer s tid =
      ({ id := tid, telegram_id := tid, first_name := "Неизвестный",
         last_name := some "Игрок", username := none, rating := 1500 }, s) := by
  simp [getPlayer, h]

/-- Initial server state of the module. -/
def initialState : ServerState :=
  { players_db := [], rooms_db := [], room_counter := 1, tournaments_db := [],
    tournament_games := [], tournament_counter := 0, current_tournament := none }

theorem getPlayer_unknown_synthetic_witness :
    lookupA initialState.players_db 42 = none ∧
    getPlayer initialState 42 =
      ({ id := 42, telegram_id := 42, first_name := "Неизвестный",
         last_name := some "Игрок", username := none, rating := 1500 },
       initialState) :=
  ⟨rfl, getPlayer_unknown_synthetic initialState 42 rfl⟩

/-- C8: `update_rating` is the identity on its rating-state triple whenever
the result list is empty, and whenever the variance accumulator
`Σ g(RDj)²·E·(1−E)` is exactly zero. -/
theorem update_rating_noop (rating rd vol tau : ℝ) (results : List (ℝ × ℝ × ℝ)) :
    update_rating rating rd vol [] tau = (rating, rd, vol) ∧
    (vSum rating results = 0 →
      update_rating rating rd vol results tau = (rating, rd, vol)) := by
  constructor
  · simp [update_rating]
  · intro h
    cases results with
    | nil => simp [update_rating]
    | cons a l => simp [update_rating, h]

theorem update_rating_noop_witness :
    vSum 1500 ([] : List (ℝ × ℝ × ℝ)) = 0 ∧
    update_rating 1500 350 0.06 [] 0.5 = (1500, 350, 0.06) :=
  ⟨rfl, (update_rating_noop 1500 350 0.06 0.5 []).2 rfl⟩

/-- C4: finishing a game in a room whose member count is neither 2 nor 4
fails with the roster-size validation error and leaves the entire server
state (ratings, room, tournament log) unchanged. -/
theorem finishGame_invalid_roster (s : ServerState) (room_id : Nat) (room : Room)
    (sd : ScoreData) (hroom : lookupA s.rooms_db room_id = some room)
    (hlen : room.members.length ∉ ([2, 4] : List Nat)) :
    finishGame s room_id sd = (.error .invalidRoster, s) := by
  simp [finishGame, hroom, hlen]

/-- A three-member room used as the C4 witness input. -/
def roomOf3 : Room :=
  { id := 1, name := "trio", creator_id := 10, creator_full_name := "Игрок 10",
    max_players := 4, member_count := 3, is_active := true,
    members := [{ id := 1, tid := 10, is_leader := true },
                { id := 2, tid := 11, is_leader := false },
                { id := 3, tid := 12, is_leader := false }],
    game_finished := false, final_score := none, rating_changes := none }

def stateOf3 : ServerState :=
  { players_db := [], rooms_db := [(1, roomOf3)], room_counter := 2,
    tournaments_db := [], tournament_games := [], tournament_counter := 0,
    current_tournament := none }

theorem finishGame_invalid_roster_witness :
    lookupA stateOf3.rooms_db 1 = some roomOf3 ∧
    roomOf3.members.length ∉ ([2, 4] : List Nat) ∧
    finishGame stateOf3 1 { team1 := [10], team2 := [11, 12], score1 := 21, score2 := 15 } =
      (.error .invalidRoster, stateOf3) :=
  ⟨rfl, by decide,
    finishGame_invalid_roster stateOf3 1 roomOf3
      { team1 := [10], team2 := [11, 12], score1 := 21, score2 := 15 }
      rfl (by decide)⟩

/-- Helper to build a player record with a given id and rating. -/
def mkPlayer (tid : Int) (r : ℝ) : Player :=
  { id := tid, telegram_id := tid, first_name := "Игрок",
    last_name := some (toString tid), username := none, rating := r }

/-- C2 counterexample: on a 1-element team the code returns the constant
1500, not the player's own rating — at rating 1600 the spec's aggregator
answers 1600 while `calculate_team_rating` answers 1500. -/
theorem calculate_team_rating_single_cex :
    calculate_team_rating [mkPlayer 9 1600] true = 1500 ∧
    aggregate_spec [1600] = some 1600 ∧
    (1500 : ℤ) ≠ 1600 := by
  refine ⟨by simp [calculate_team_rating], rfl, by decide⟩

/-- C2 amended: for every 2-element team the code returns the truncation of
`avg + 0.05·avg` (so `[1500, 1600] ↦ 1627`), but for every team of any other
size — in particular a single player — it returns the constant 1500,
ignoring the ratings entirely. -/
theorem calculate_team_rating_amended :
    (∀ (p q : Player) (w : Bool),
      calculate_team_rating [p, q] w =
        pyTrunc ((p.rating + q.rating) / 2 + 0.05 * ((p.rating + q.rating) / 2))) ∧
    (∀ (p : Player) (w : Bool), calculate_team_rating [p] w = 1500) ∧
    calculate_team_rating [mkPlayer 1 1500, mkPlayer 2 1600] true = 1627 := by
  refine ⟨?_, ?_, ?_⟩
  · intro p q w
    have h2 : ¬(([p, q] : List Player).length ≠ 2) := by simp
    simp only [calculate_team_rating, h2, if_false, List.map_cons, List.map_nil,
      List.sum_cons, List.sum_nil]
    ring_nf
  · intro p w
    simp [calculate_team_rating]
  · have h : calculate_team_rating [mkPlayer 1 1500, mkPlayer 2 1600] true =
        pyTrunc 1627.5 := by
      norm_num [calculate_team_rating, mkPlayer]
    have h0 : (0 : ℝ) ≤ 1627.5 := by norm_num
    have hfloor : (⌊(1627.5 : ℝ)⌋ : ℤ) = 1627 := by
      rw [Int.floor_eq_iff]
      norm_num
    rw [h]
    simp only [pyTrunc, if_pos h0, hfloor]

/-- State holding one player whose stored rating (1627) differs from the
default. -/
def stateWith1627 : ServerState :=
  { players_db := [(1, mkPlayer 1 1627)], rooms_db := [], room_counter := 1,
    tournaments_db := [], tournament_games := [], tournament_counter := 0,
    current_tournament := none }

/-- C1: the player create/update operation is NOT rating-preserving — the
handler rebuilds the player dict with `rating: 1500`, so re-registering a
player whose stored rating is 1627 silently resets it to 1500 (whereas the
parallel FastAPI implementation `src/api/main.py` updates only the display
fields of an existing player).  This evaluates the code at the failing
input. -/
theorem upsertPlayer_resets_rating :
    (lookupA stateWith1627.players_db 1).map Player.rating = some 1627 ∧
    isOk (upsertPlayer stateWith1627
      { telegram_id := some 1, first_name := some "Иван",
        last_name := none, username := none }).1 = true ∧
    (lookupA (upsertPlayer stateWith1627
      { telegram_id := some 1, first_name := some "Иван",
        last_name := none, username := none }).2.players_db 1).map Player.rating =
      some 1500 ∧
    (1500 : ℝ) ≠ 1627 := by
  refine ⟨rfl, rfl, ?_, by norm_num⟩
  simp [upsertPlayer, stateWith1627, insertA, lookupA, mkPlayer, isOk]

/-- State with tournament 1 open. -/
def stateTourOpen : ServerState :=
  { players_db := [], rooms_db := [], room_counter := 1,
    tournaments_db := [(1, { id := 1, active := true })],
    tournament_games := [(1, [])], tournament_counter := 1,
    current_tournament := some 1 }

/-- C7 counterexample: with tournament 1 currently open, the start operation
does not fail — it opens tournament 2, replaces the current pointer and adds
a second session record, contradicting "fails with an already-active conflict
error and changes nothing". -/
theorem startTournament_replaces_open_cex :
    stateTourOpen.current_tournament = some 1 ∧
    (startTournament stateTourOpen).1 = 2 ∧
    (startTournament stateTourOpen).2.current_tournament = some 2 ∧
    (some 2 : Option Nat) ≠ some 1 ∧
    lookupA (startTournament stateTourOpen).2.tournaments_db 2 =
      some { id := 2, active := true } := by
  refine ⟨rfl, rfl, rfl, by decide, rfl⟩

/-- C7 amended: the tournament start operation never fails.  Even while a
session `t` is open it increments the counter, opens a fresh session with the
new id, makes that id current (so the open session is replaced as current),
and leaves the old session's stored record untouched (still marked active). -/
theorem startTournament_always_succeeds (s : ServerState) (t : Nat)
    (hcur : s.current_tournament = some t) (hle : t ≤ s.tournament_counter) :
    (startTournament s).1 = s.tournament_counter + 1 ∧
    (startTournament s).2.current_tournament = some (s.tournament_counter + 1) ∧
    (startTournament s).2.current_tournament ≠ s.current_tournament ∧
    lookupA (startTournament s).2.tournaments_db (s.tournament_counter + 1) =
      some { id := s.tournament_counter + 1, active := true } ∧
    lookupA (startTournament s).2.tournaments_db t = lookupA s.tournaments_db t := by
  have hne : t ≠ s.tournament_counter + 1 := by omega
  refine ⟨rfl, rfl, ?_, ?_, ?_⟩
  · rw [hcur]
    simp [startTournament]
    omega
  · exact lookupA_insertA_self _ _ _
  · exact lookupA_insertA_ne _ _ _ _ hne

theorem startTournament_always_succeeds_witness :
    stateTourOpen.current_tournament = some 1 ∧
    1 ≤ stateTourOpen.tournament_counter ∧
    (startTournament stateTourOpen).1 = stateTourOpen.tournament_counter + 1 ∧
    (startTournament stateTourOpen).2.current_tournament ≠
      stateTourOpen.current_tournament ∧
    lookupA (startTournament stateTourOpen).2.tournaments_db 1 =
      lookupA stateTourOpen.tournaments_db 1 :=
  ⟨rfl, by decide,
    (startTournament_always_succeeds stateTourOpen 1 rfl (by decide)).1,
    (startTournament_always_succeeds stateTourOpen 1 rfl (by decide)).2.2.1,
    (startTournament_always_succeeds stateTourOpen 1 rfl (by decide)).2.2.2.2⟩

/-- Does the registry hold an Open (not yet finished) room by this creator?
(The spec's `Open` state is: present in the registry and not `Finished`.) -/
def hasOpenRoomBy (s : ServerState) (cid : Int) : Bool :=
  s.rooms_db.any (fun kv => kv.2.creator_id == cid && !kv.2.game_finished)

/-- A finished singles room created by player 10, still in the registry. -/
def finishedRoom10 : Room :=
  { id := 1, name := "done", creator_id := 10, creator_full_name := "Игрок 10",
    max_players := 4, member_count := 2, is_active := true,
    members := [{ id := 1, tid := 10, is_leader := true },
                { id := 2, tid := 11, is_leader := false }],
    game_finished := true, final_score := some (21, 15), rating_changes := some [] }

def stateFinished10 : ServerState :=
  { players_db := [(10, mkPlayer 10 1520), (11, mkPlayer 11 1480)],
    rooms_db := [(1, finishedRoom10)], room_counter := 2,
    tournaments_db := [], tournament_games := [], tournament_counter := 0,
    current_tournament := none }

/-- C6 counterexample: creator 10 has no Open room (their only room is
Finished but still stored), yet Create fails with the duplicate-room
conflict — the scan matches any stored room by the creator, not only Open
ones, so "fails if and only if the registry holds an existing Open room
created by this creator" is false at this input. -/
theorem createRoom_conflict_without_open_cex :
    hasOpenRoomBy stateFinished10 10 = false ∧
    createRoom stateFinished10
      { creator_telegram_id := some 10, name := some "новая", max_players := none } =
      (.error (.duplicateRoom 1), stateFinished10) := by
  constructor
  · rfl
  · simp [createRoom, stateFinished10, finishedRoom10, List.find?]

/-- C6 amended: Create fails with the duplicate-room conflict if and only if
the registry holds ANY room created by this creator — whatever its state,
including a Finished one; on that failure the whole state (hence the existing
room) is unmodified, and otherwise a new room is created with the creator as
its sole member with `is_leader = true`. -/
theorem createRoom_duplicate_amended (s : ServerState) (cid : Int) (d : RoomData)
    (hd : d.creator_telegram_id = some cid) :
    (∀ rid room,
      s.rooms_db.find? (fun kv => kv.2.creator_id == cid) = some (rid, room) →
      createRoom s d = (.error (.duplicateRoom rid), s)) ∧
    (s.rooms_db.find? (fun kv => kv.2.creator_id == cid) = none →
      ∀ nm, d.name = some nm →
      isOk (createRoom s d).1 = true ∧
      (lookupA (createRoom s d).2.rooms_db s.room_counter).map Room.members =
        some [{ id := 1, tid := cid, is_leader := true }] ∧
      (lookupA (createRoom s d).2.rooms_db s.room_counter).map Room.game_finished =
        some false ∧
      (lookupA (createRoom s d).2.rooms_db s.room_counter).map Room.id =
        some s.room_counter ∧
      (createRoom s d).2.room_counter = s.room_counter + 1) := by
  constructor
  · intro rid room hfind
    simp [createRoom, hd, hfind]
  · intro hfind nm hnm
    cases hlook : lookupA s.players_db cid with
    | none =>
      simp [createRoom, hd, hfind, hnm, hlook, lookupA_insertA_self, isOk]
    | some creator =>
      simp [createRoom, hd, hfind, hnm, hlook, lookupA_insertA_self, isOk]

theorem createRoom_duplicate_amended_witness :
    stateFinished10.rooms_db.find? (fun kv => kv.2.creator_id == 10) =
      some (1, finishedRoom10) ∧
    createRoom stateFinished10
      { creator_telegram_id := some 10, name := some "новая", max_players := none } =
      (.error (.duplicateRoom 1), stateFinished10) :=
  ⟨rfl,
    (createRoom_duplicate_amended stateFinished10 10
      { creator_telegram_id := some 10, name := some "новая", max_players := none }
      rfl).1 1 finishedRoom10 rfl⟩

theorem findMemberIdx_eraseIdx_filter (tid : Int) (l : List Member)
    (hmem : tid ∈ l.map Member.tid) (hnd : (l.map Member.tid).Nodup) :
    ∃ i, findMemberIdx tid l = some i ∧
      (l.eraseIdx i).map Member.tid =
        (l.map Member.tid).filter (fun x => x ≠ tid) := by
  induction l with
  | nil => simp at hmem
  | cons m rest ih =>
    simp only [List.map_cons, List.nodup_cons] at hnd
    by_cases h : m.tid = tid
    · refine ⟨0, by simp [findMemberIdx, h], ?_⟩
      show rest.map Member.tid = (m.tid :: rest.map Member.tid).filter (fun x => x ≠ tid)
      rw [List.filter_cons]
      have hdec : ¬(decide (m.tid ≠ tid) = true) := by simp [h]
      rw [if_neg hdec, eq_comm, List.filter_eq_self]
      intro a ha
      simp only [ne_eq, decide_eq_true_eq]
      intro e
      exact hnd.1 (by rw [h, ← e]; exact ha)
    · have hmem' : tid ∈ rest.map Member.tid := by
        rcases List.mem_cons.mp hmem with h' | h'
        · exact absurd h'.symm h
        · exact h'
      obtain ⟨i, hfind, herase⟩ := ih hmem' hnd.2
      refine ⟨i + 1, by simp [findMemberIdx, h, hfind], ?_⟩
      show (m :: rest.eraseIdx i).map Member.tid =
        (m.tid :: rest.map Member.tid).filter (fun x => x ≠ tid)
      rw [List.filter_cons]
      have hdec : decide (m.tid ≠ tid) = true := by simp [h]
      rw [if_pos hdec, List.map_cons, herase]

/-- C3: when the creator (present in the member list, occurring once — the
reachable-state invariant) leaves, the room is removed from the registry
whatever the remaining member count, and the reported affected ids are
exactly the other members' ids. -/
theorem leaveRoom_creator_disbands (s : ServerState) (room_id : Nat) (room : Room)
    (tid : Int) (hroom : lookupA s.rooms_db room_id = some room)
    (hcrea : room.creator_id = tid)
    (hmem : tid ∈ room.members.map Member.tid)
    (hnd : (room.members.map Member.tid).Nodup) :
    leaveRoom s room_id tid =
      (.ok (.disbanded ((room.members.map Member.tid).filter (fun x => x ≠ tid))),
        { s with rooms_db := eraseA s.rooms_db room_id }) := by
  obtain ⟨i, hfind, herase⟩ := findMemberIdx_eraseIdx_filter tid room.members hmem hnd
  have hbeq : (room.creator_id == tid) = true := by simp [hcrea]
  simp only [leaveRoom, hroom, hfind, hbeq, if_true]
  rw [herase]

/-- A four-member room whose creator is about to leave. -/
def room4 : Room :=
  { id := 1, name := "четвёрка", creator_id := 10, creator_full_name := "Игрок 10",
    max_players := 4, member_count := 4, is_active := true,
    members := [{ id := 1, tid := 10, is_leader := true },
                { id := 2, tid := 11, is_leader := false },
                { id := 3, tid := 12, is_leader := false },
                { id := 4, tid := 13, is_leader := false }],
    game_finished := false, final_score := none, rating_changes := none }

def state4 : ServerState :=
  { players_db := [], rooms_db := [(1, room4)], room_counter := 2,
    tournaments_db := [], tournament_games := [], tournament_counter := 0,
    current_tournament := none }

theorem leaveRoom_creator_disbands_witness :
    lookupA state4.rooms_db 1 = some room4 ∧
    room4.creator_id = 10 ∧
    leaveRoom state4 1 10 =
      (.ok (.disbanded [11, 12, 13]), { state4 with rooms_db := [] }) :=
  ⟨rfl, rfl,
    leaveRoom_creator_disbands state4 1 room4 10 rfl rfl (by decide) (by decide)⟩

/-- An open singles room (players 1 and 2, capacity 4). -/
def roomSingles : Room :=
  { id := 1, name := "пара", creator_id := 1, creator_full_name := "Игрок 1",
    max_players := 4, member_count := 2, is_active := true,
    members := [{ id := 1, tid := 1, is_leader := true },
                { id := 2, tid := 2, is_leader := false }],
    game_finished := false, final_score := none, rating_changes := none }

def stateSingles : ServerState :=
  { players_db := [(1, mkPlayer 1 1500), (2, mkPlayer 2 1500)],
    rooms_db := [(1, roomSingles)], room_counter := 2,
    tournaments_db := [], tournament_games := [], tournament_counter := 0,
    current_tournament := none }

def sdSingles : ScoreData := { team1 := [1], team2 := [2], score1 := 21, score2 := 15 }

/-- Shorthand for the rating-change computation of the singles game. -/
noncomputable def rcSingles : List (Int × RatingChange) × List (Int × Player) :=
  calculate_rating_changes stateSingles.players_db sdSingles

/-- The singles room after its game is finished. -/
noncomputable def roomSinglesFin : Room :=
  { roomSingles with
    game_finished := true, final_score := some (21, 15),
    rating_changes := some rcSingles.1 }

/-- The server state after finishing the singles game. -/
noncomputable def stateSingles1 : ServerState :=
  { stateSingles with
    players_db := rcSingles.2,
    rooms_db := insertA stateSingles.rooms_db 1 roomSinglesFin }

theorem finishGame_singles_eq :
    finishGame stateSingles 1 sdSingles =
      (.ok (.finished roomSinglesFin rcSingles.1), stateSingles1) := rfl

/-- C5 counterexample: after a successful FinishGame on the singles room, the
room (now marked finished) still accepts a Join by a third player (which
mutates its roster), still accepts a Leave, and still accepts a second
FinishGame — none of these transitions is rejected. -/
theorem finished_room_transitions_cex :
    isOk (finishGame stateSingles 1 sdSingles).1 = true ∧
    (lookupA (finishGame stateSingles 1 sdSingles).2.rooms_db 1).map
      Room.game_finished = some true ∧
    isOk (joinRoom (finishGame stateSingles 1 sdSingles).2 1 3 "Новый" "" none).1 =
      true ∧
    (lookupA (joinRoom (finishGame stateSingles 1 sdSingles).2 1 3 "Новый" "" none).2.rooms_db 1).map
      Room.member_count = some 3 ∧
    isOk (leaveRoom (finishGame stateSingles 1 sdSingles).2 1 2).1 = true ∧
    isOk (finishGame (finishGame stateSingles 1 sdSingles).2 1 sdSingles).1 = true := by
  rw [finishGame_singles_eq]
  have hlook2 : lookupA stateSingles1.rooms_db 1 = some roomSinglesFin := rfl
  have hany : roomSinglesFin.members.any (fun m => m.tid == 3) = false := rfl
  have hcap : ¬(roomSinglesFin.members.length ≥ roomSinglesFin.max_players) := by decide
  have hlen : roomSinglesFin.members.length ∈ ([2, 4] : List Nat) := by decide
  have hidx : findMemberIdx 2 roomSinglesFin.members = some 1 := rfl
  have hnc : (roomSinglesFin.creator_id == 2) = false := rfl
  have hnz : ((roomSinglesFin.members.eraseIdx 1).length == 0) = false := rfl
  have hlen2 : roomSinglesFin.members.length = 2 := rfl
  refine ⟨rfl, rfl, ?_, ?_, ?_, ?_⟩
  · simp [joinRoom, hlook2, hany, hcap, isOk]
  · have hcap2 : ¬(roomSinglesFin.max_players ≤ 2) := by decide
    simp [joinRoom, hlook2, hany, hcap, hcap2, isOk, lookupA_insertA_self, hlen2]
  · simp [leaveRoom, hlook2, hidx, hnc, hnz, isOk]
  · simp [finishGame, hlook2, hlen, hlen2, isOk]

/-- C5 amended: a successful FinishGame marks the room `game_finished` and
keeps it in the registry, but such a room accepts further transitions under
the ordinary open-room rules: Join succeeds for a non-member while capacity
remains, FinishGame succeeds again whenever the roster size is 2 or 4 (and
reapplies rating updates), and Leave succeeds for any member. -/
theorem finished_room_still_accepts (s : ServerState) (room_id : Nat) (room : Room)
    (hroom : lookupA s.rooms_db room_id = some room)
    (hfin : room.game_finished = true) :
    room.game_finished = true ∧
    (∀ tid fn ln un, room.members.any (fun m => m.tid == tid) = false →
      room.members.length < room.max_players →
      isOk (joinRoom s room_id tid fn ln un).1 = true) ∧
    (∀ sd, room.members.length ∈ ([2, 4] : List Nat) →
      isOk (finishGame s room_id sd).1 = true) ∧
    (∀ tid i, findMemberIdx tid room.members = some i →
      isOk (leaveRoom s room_id tid).1 = true) := by
  refine ⟨hfin, ?_, ?_, ?_⟩
  · intro tid fn ln un hany hcap
    have hnotge : ¬(room.members.length ≥ room.max_players) := by omega
    simp [joinRoom, hroom, hany, hnotge, isOk]
  · intro sd hlen
    simp [finishGame, hroom, hlen, isOk]
  · intro tid i hidx
    by_cases hc : (room.creator_id == tid) = true
    · simp [leaveRoom, hroom, hidx, hc, isOk]
    · by_cases hz : ((room.members.eraseIdx i).length == 0) = true
      · simp [leaveRoom, hroom, hidx, hc, hz, isOk]
      · simp [leaveRoom, hroom, hidx, hc, hz, isOk]

theorem finished_room_still_accepts_witness :
    lookupA stateFinished10.rooms_db 1 = some finishedRoom10 ∧
    finishedRoom10.game_finished = true ∧
    isOk (joinRoom stateFinished10 1 12 "Новый" "" none).1 = true ∧
    isOk (finishGame stateFinished10 1 sdSingles).1 = true ∧
    isOk (leaveRoom stateFinished10 1 11).1 = true := by
  have h := finished_room_still_accepts stateFinished10 1 finishedRoom10 rfl rfl
  exact ⟨rfl, h.1, h.2.1 12 "Новый" "" none (by decide) (by decide),
    h.2.2.1 sdSingles (by decide), h.2.2.2 11 1 rfl⟩

theorem calculate_g_pos (rd : ℝ) : 0 < calculate_g rd := by
  unfold calculate_g
  have hpi := Real.pi_pos
  positivity

theorem calculate_g_le_one (rd : ℝ) : calculate_g rd ≤ 1 := by
  unfold calculate_g
  have hpi := Real.pi_pos
  have harg : (1 : ℝ) ≤ 1 + 3 * rd ^ 2 / Real.pi ^ 2 := by
    have : (0 : ℝ) ≤ 3 * rd ^ 2 / Real.pi ^ 2 := by positivity
    linarith
  have hsq : (1 : ℝ) ≤ Real.sqrt (1 + 3 * rd ^ 2 / Real.pi ^ 2) := by
    have := Real.sqrt_le_sqrt harg
    rwa [Real.sqrt_one] at this
  rw [div_le_one (by linarith)]
  exact hsq

theorem calculate_e_pos (r t rd : ℝ) : 0 < calculate_e r t rd := by
  unfold calculate_e
  have h := Real.exp_pos (-(calculate_g rd) * (r - t) / 400)
  positivity

theorem calculate_e_lt_one (r t rd : ℝ) : calculate_e r t rd < 1 := by
  unfold calculate_e
  have h := Real.exp_pos (-(calculate_g rd) * (r - t) / 400)
  rw [div_lt_one (by linarith)]
  linarith

theorem pyTrunc_gt_sub_one (x : ℝ) : x - 1 < (pyTrunc x : ℝ) := by
  unfold pyTrunc
  by_cases h : 0 ≤ x
  · rw [if_pos h]
    exact Int.sub_one_lt_floor x
  · rw [if_neg h]
    have := Int.le_ceil x
    linarith

theorem pyTrunc_lt_add_one (x : ℝ) : (pyTrunc x : ℝ) < x + 1 := by
  unfold pyTrunc
  by_cases h : 0 ≤ x
  · rw [if_pos h]
    have := Int.floor_le x
    linarith
  · rw [if_neg h]
    exact Int.ceil_lt_add_one x

/-- Sign bound behind the winner's update: with the fixed RD of 350, the
(already truncated) updated rating strictly exceeds the old one, for any
opponent rating, any expected score `E ∈ (0,1)` and any new volatility. -/
theorem key_win_bound (r G E nv : ℝ) (hg : 0 < G) (hg1 : G ≤ 1)
    (hE : 0 < E) (hE1 : E < 1) :
    r < (pyTrunc (r + Real.sqrt ((350 : ℝ) ^ 2 + nv ^ 2) ^ 2 *
      (G * (1 - E) * (1 / (G ^ 2 * E * (1 - E))))) : ℝ) := by
  have hWeq : Real.sqrt ((350 : ℝ) ^ 2 + nv ^ 2) ^ 2 = (350 : ℝ) ^ 2 + nv ^ 2 :=
    Real.sq_sqrt (by positivity)
  have hgne : G ≠ 0 := ne_of_gt hg
  have hEne : E ≠ 0 := ne_of_gt hE
  have hE1ne : (1 : ℝ) - E ≠ 0 := ne_of_gt (by linarith)
  have hdelta : G * (1 - E) * (1 / (G ^ 2 * E * (1 - E))) = 1 / (G * E) := by
    rw [one_div, one_div, mul_inv, mul_inv, pow_two]
    field_simp
    ring
  rw [hWeq, hdelta]
  have hGE : 0 < G * E := mul_pos hg hE
  have hGE1 : G * E < 1 := by nlinarith
  have h1 : 1 < 1 / (G * E) := one_lt_one_div hGE hGE1
  have htr := pyTrunc_gt_sub_one (r + ((350 : ℝ) ^ 2 + nv ^ 2) * (1 / (G * E)))
  have hmul : ((350 : ℝ) ^ 2 + nv ^ 2) * 1 ≤ ((350 : ℝ) ^ 2 + nv ^ 2) * (1 / (G * E)) :=
    mul_le_mul_of_nonneg_left h1.le (by positivity)
  have hnv := sq_nonneg nv
  nlinarith

/-- Sign bound behind the loser's update. -/
theorem key_loss_bound (r G E nv : ℝ) (hg : 0 < G) (hg1 : G ≤ 1)
    (hE : 0 < E) (hE1 : E < 1) :
    (pyTrunc (r + Real.sqrt ((350 : ℝ) ^ 2 + nv ^ 2) ^ 2 *
      (G * (0 - E) * (1 / (G ^ 2 * E * (1 - E))))) : ℝ) < r := by
  have hWeq : Real.sqrt ((350 : ℝ) ^ 2 + nv ^ 2) ^ 2 = (350 : ℝ) ^ 2 + nv ^ 2 :=
    Real.sq_sqrt (by positivity)
  have hgne : G ≠ 0 := ne_of_gt hg
  have hEne : E ≠ 0 := ne_of_gt hE
  have hE1ne : (1 : ℝ) - E ≠ 0 := ne_of_gt (by linarith)
  have hdelta : G * (0 - E) * (1 / (G ^ 2 * E * (1 - E))) = -(1 / (G * (1 - E))) := by
    field_simp
    ring
  rw [hWeq, hdelta]
  have hGE : 0 < G * (1 - E) := mul_pos hg (by linarith)
  have hGE1 : G * (1 - E) < 1 := by nlinarith
  have h1 : 1 < 1 / (G * (1 - E)) := one_lt_one_div hGE hGE1
  have htr := pyTrunc_lt_add_one (r + ((350 : ℝ) ^ 2 + nv ^ 2) * -(1 / (G * (1 - E))))
  have hmul : ((350 : ℝ) ^ 2 + nv ^ 2) * 1 ≤ ((350 : ℝ) ^ 2 + nv ^ 2) * (1 / (G * (1 - E))) :=
    mul_le_mul_of_nonneg_left h1.le (by positivity)
  have hnv := sq_nonneg nv
  nlinarith

theorem vSum_single (r t s : ℝ) :
    vSum r [(t, 350, s)] =
      calculate_g 350 ^ 2 * calculate_e r t 350 * (1 - calculate_e r t 350) := by
  simp [vSum]

theorem deltaSum_single (r t s : ℝ) :
    deltaSum r [(t, 350, s)] = calculate_g 350 * (s - calculate_e r t 350) := by
  simp [deltaSum]

theorem vSum_single_ne (r t s : ℝ) : vSum r [(t, 350, s)] ≠ 0 := by
  rw [vSum_single]
  have hg := calculate_g_pos 350
  have hE := calculate_e_pos r t 350
  have hE1 := calculate_e_lt_one r t 350
  exact ne_of_gt (mul_pos (mul_pos (pow_pos hg 2) hE) (by linarith))

/-- A single winning result against any opponent rating strictly raises the
(truncated) rating when the deviation is the fixed 350. -/
theorem update_rating_single_win (r t : ℝ) :
    r < (update_rating r 350 0.06 [(t, 350, 1)] 0.5).1 := by
  have hvne := vSum_single_ne r t 1
  simp only [update_rating, List.isEmpty_cons, Bool.false_eq_true, if_false]
  rw [if_neg hvne]
  simp only [vSum_single, deltaSum_single]
  exact key_win_bound r _ _ _ (calculate_g_pos 350) (calculate_g_le_one 350)
    (calculate_e_pos r t 350) (calculate_e_lt_one r t 350)

/-- A single losing result against any opponent rating strictly lowers the
(truncated) rating when the deviation is the fixed 350. -/
theorem update_rating_single_loss (r t : ℝ) :
    (update_rating r 350 0.06 [(t, 350, 0)] 0.5).1 < r := by
  have hvne := vSum_single_ne r t 0
  simp only [update_rating, List.isEmpty_cons, Bool.false_eq_true, if_false]
  rw [if_neg hvne]
  simp only [vSum_single, deltaSum_single]
  exact key_loss_bound r _ _ _ (calculate_g_pos 350) (calculate_g_le_one 350)
    (calculate_e_pos r t 350) (calculate_e_lt_one r t 350)

/-- Processing a list of player ids leaves every other key of `players_db`
untouched. -/
theorem processPlayers_frame (opp : List Int) (tw ow : Bool) (n : Nat) :
    ∀ (pids : List Int) (k : Int), k ∉ pids →
    ∀ (changes : List (Int × RatingChange)) (pdb : List (Int × Player)),
      lookupA (processPlayers opp tw ow n pids changes pdb).2 k = lookupA pdb k := by
  intro pids
  induction pids with
  | nil => intro k _ changes pdb; rfl
  | cons pid rest ih =>
    intro k hk changes pdb
    have hkrest : k ∉ rest := fun h => hk (List.mem_cons_of_mem _ h)
    have hkpid : k ≠ pid := fun h => hk (by rw [h]; exact List.mem_cons_self _ _)
    cases hlook : lookupA pdb pid with
    | none =>
      simp only [processPlayers, hlook]
      exact ih k hkrest _ _
    | some p =>
      simp only [processPlayers, hlook]
      rw [ih k hkrest]
      exact lookupA_insertA_ne _ _ _ _ hkpid

/-- Each id in the processed list (no duplicates, present in the store) comes
out of the loop with its rating replaced by the first component of a
single-opponent `update_rating` run on its previous rating, deviation 350,
volatility 0.06, tau 0.5, and outcome score `scoreOf t_won opp_won` — for
some opponent team rating `t`. -/
theorem processPlayers_rating (opp : List Int) (tw ow : Bool) (n : Nat)
    (hopp : opp.isEmpty = false) :
    ∀ (pids : List Int), pids.Nodup →
    ∀ (pid : Int), pid ∈ pids →
    ∀ (changes : List (Int × RatingChange)) (pdb : List (Int × Player)) (p : Player),
      lookupA pdb pid = some p →
      ∃ (p' : Player) (t : ℝ),
        lookupA (processPlayers opp tw ow n pids changes pdb).2 pid = some p' ∧
        p'.rating = (update_rating p.rating 350 0.06 [(t, 350, scoreOf tw ow)] 0.5).1 := by
  intro pids
  induction pids with
  | nil => intro _ pid hpid; cases hpid
  | cons q rest ih =>
    intro hnd pid hpid changes pdb p hp
    rcases List.mem_cons.mp hpid with heq | hmem
    · subst heq
      simp only [processPlayers, hp, hopp, Bool.false_eq_true, if_false]
      have hnotin : pid ∉ rest := (List.nodup_cons.mp hnd).1
      rw [processPlayers_frame opp tw ow n rest pid hnotin]
      exact ⟨_, (calculate_team_rating (getPlayers pdb opp) ow : ℝ),
        lookupA_insertA_self _ _ _, rfl⟩
    · have hq : q ≠ pid := fun e => (List.nodup_cons.mp hnd).1 (e ▸ hmem)
      have hnd' := (List.nodup_cons.mp hnd).2
      cases hlookq : lookupA pdb q with
      | none =>
        simp only [processPlayers, hlookq]
        exact ih hnd' pid hmem _ _ p hp
      | some pq =>
        simp only [processPlayers, hlookq]
        refine ih hnd' pid hmem _ _ p ?_
        rw [lookupA_insertA_ne _ _ _ _ (Ne.symm hq)]
        exact hp

/-- C9: for a completed game with `score1 > score2` (both rosters non-empty,
ids distinct and known), every team-1 player's stored rating strictly
increases and every team-2 player's strictly decreases — in particular for
two 1500-rated players with a 21–15 score.  The fresh `(rating, 350, 0.06)`
state and `tau = 0.5` are the deterministic defaults used by the resolver. -/
theorem calculate_rating_changes_signs (pdb : List (Int × Player)) (sd : ScoreData)
    (hscore : sd.score2 < sd.score1)
    (hall : ∀ pid ∈ sd.team1 ++ sd.team2, (lookupA pdb pid).isSome = true)
    (hnd : (sd.team1 ++ sd.team2).Nodup)
    (h1 : sd.team1.isEmpty = false) (h2 : sd.team2.isEmpty = false) :
    (∀ pid ∈ sd.team1, ∃ p p', lookupA pdb pid = some p ∧
      lookupA (calculate_rating_changes pdb sd).2 pid = some p' ∧
      p.rating < p'.rating) ∧
    (∀ pid ∈ sd.team2, ∃ p p', lookupA pdb pid = some p ∧
      lookupA (calculate_rating_changes pdb sd).2 pid = some p' ∧
      p'.rating < p.rating) := by
  obtain ⟨hnd1, hnd2, hdisj⟩ := List.nodup_append.mp hnd
  have ht1 : sd.team1.filter (fun pid => (lookupA pdb pid).isSome) = sd.team1 :=
    List.filter_eq_self.mpr fun a ha => hall a (List.mem_append_left _ ha)
  have ht2 : sd.team2.filter (fun pid => (lookupA pdb pid).isSome) = sd.team2 :=
    List.filter_eq_self.mpr fun a ha => hall a (List.mem_append_right _ ha)
  have hw1 : decide (sd.score1 > sd.score2) = true := decide_eq_true hscore
  have hw2 : decide (sd.score2 > sd.score1) = false := decide_eq_false (by omega)
  have hcrc : (calculate_rating_changes pdb sd).2 =
      (processPlayers sd.team1 false true 2 sd.team2
        (processPlayers sd.team2 true false 1 sd.team1 [] pdb).1
        (processPlayers sd.team2 true false 1 sd.team1 [] pdb).2).2 := by
    simp only [calculate_rating_changes, ht1, ht2, hw1, hw2]
  constructor
  · intro pid hpid
    obtain ⟨p, hp⟩ := Option.isSome_iff_exists.mp (hall pid (List.mem_append_left _ hpid))
    obtain ⟨p1, t, hlook1, hrat1⟩ :=
      processPlayers_rating sd.team2 true false 1 h2 sd.team1 hnd1 pid hpid [] pdb p hp
    have hnotin2 : pid ∉ sd.team2 := hdisj hpid
    refine ⟨p, p1, hp, ?_, ?_⟩
    · rw [hcrc, processPlayers_frame sd.team1 false true 2 sd.team2 pid hnotin2]
      exact hlook1
    · rw [hrat1, show scoreOf true false = 1 from rfl]
      exact update_rating_single_win p.rating t
  · intro pid hpid
    obtain ⟨p, hp⟩ := Option.isSome_iff_exists.mp (hall pid (List.mem_append_right _ hpid))
    have hnotin1 : pid ∉ sd.team1 := fun h => hdisj h hpid
    have hp1 : lookupA (processPlayers sd.team2 true false 1 sd.team1 [] pdb).2 pid =
        some p := by
      rw [processPlayers_frame sd.team2 true false 1 sd.team1 pid hnotin1]
      exact hp
    obtain ⟨p2, t, hlook2, hrat2⟩ :=
      processPlayers_rating sd.team1 false true 2 h1 sd.team2 hnd2 pid hpid
        (processPlayers sd.team2 true false 1 sd.team1 [] pdb).1
        (processPlayers sd.team2 true false 1 sd.team1 [] pdb).2 p hp1
    refine ⟨p, p2, hp, ?_, ?_⟩
    · rw [hcrc]
      exact hlook2
    · rw [hrat2, show scoreOf false true = 0 from rfl]
      exact update_rating_single_loss p.rating t

theorem calculate_rating_changes_signs_witness :
    (∃ p p', lookupA stateSingles.players_db 1 = some p ∧
      lookupA (calculate_rating_changes stateSingles.players_db sdSingles).2 1 = some p' ∧
      p.rating < p'.rating) ∧
    (∃ p p', lookupA stateSingles.players_db 2 = some p ∧
      lookupA (calculate_rating_changes stateSingles.players_db sdSingles).2 2 = some p' ∧
      p'.rating < p.rating) := by
  have h := calculate_rating_changes_signs stateSingles.players_db sdSingles
    (by decide) (by decide) (by decide) rfl rfl
  exact ⟨h.1 1 (by decide), h.2 2 (by decide)⟩
